import Mathlib

/-!
# Verification development for `subtile.py`

`subtile.py` is an Inkscape extension that slices a single SVG into a
`{z}/{x}/{y}.{ext}` pyramid of raster tiles.  This file gives a shallow
embedding of its core functions and proves (or refutes) the specified
properties about them.

Modelling decisions, stated once here:

* Python floats are IEEE binary64 values.  They are embedded as exact
  rationals, and every arithmetic operation of the source is followed by
  `rnd`, correct rounding to 53 significant bits with round-to-nearest,
  ties-to-even.  The exponent is unbounded (none of the quantities in this
  development come anywhere near the overflow or subnormal range of
  binary64, where the unbounded model and real doubles agree).
* `np.arange(start, stop, step)` for floats computes its length as
  `ceil((stop - start) / step)` in double arithmetic (clamped at 0), fills
  element `i` with `start + i * step` (again in doubles), and raises
  `ZeroDivisionError` when `step == 0`.
* Filesystem paths are lists of path components; a filesystem is the list
  of directories that exist.  `pathlib.Path.mkdir` is modelled with its
  `parents` / `exist_ok` flags: an existing directory errors unless
  `exist_ok`, a missing parent errors with `FileNotFoundError` unless
  `parents` (in which case all missing ancestors are created).
* The decoded intermediate raster (`PIL.Image.open` of the PNG the
  rasterizer wrote) is a list of bands, each a list of pixel values, plus
  the mode information of whether the image carries an alpha band (for
  every PIL mode with alpha — RGBA, RGBa, LA, La, PA — the alpha band is
  the last band).  `Image.getextrema()` returns the per-band
  `(min, max)` pairs; for a *single-band* image PIL returns one flat
  `(min, max)` pair instead of a 1-tuple of pairs.
* `export_tile`'s effects are summarised by which of the two files it
  touches (the PNG intermediate and the final output path) exist when it
  returns, whether the re-encode step (`image.save`) ran, and whether the
  intermediate was `os.remove`d.  The external rasterizer is the opaque
  collaborator that put a raster at the intermediate path; it is passed to
  the run as an oracle from tiles to decoded images.
-/

namespace Subtile

/-! ## IEEE binary64 arithmetic over exact rationals -/

/-- Floor of the base-2 logarithm, by structural recursion on a fuel
argument (so that it reduces inside the kernel). -/
def log2fuel : ℕ → ℕ → ℕ
  | 0, _ => 0
  | f + 1, n => if n ≤ 1 then 0 else log2fuel f (n / 2) + 1

/-- Value `nlog2 n` is `⌊log₂ n⌋` for `1 ≤ n` (and `0` for `n = 0`). -/
def nlog2 (n : ℕ) : ℕ := log2fuel n n

/-- Power `2 ^ e` for an integer exponent, as a rational. -/
def pow2 (e : ℤ) : ℚ :=
  if 0 ≤ e then ((2 ^ e.toNat : ℕ) : ℚ) else (((2 ^ (-e).toNat : ℕ) : ℚ))⁻¹

/-- The exponent of a positive rational: the unique `e` with
`2 ^ e ≤ q < 2 ^ (e + 1)`.  A first guess from the numerator's and
denominator's `nlog2` is off by at most one; comparisons settle it. -/
def qexp2 (q : ℚ) : ℤ :=
  let c : ℤ := (nlog2 q.num.natAbs : ℤ) - (nlog2 q.den : ℤ)
  if pow2 (c + 1) ≤ |q| then c + 1 else if pow2 c ≤ |q| then c else c - 1

/-- Round a rational to an integer, nearest, ties to even. -/
def roundHalfEven (r : ℚ) : ℤ :=
  let f := ⌊r⌋
  let frac := r - (f : ℚ)
  if frac < 1 / 2 then f
  else if 1 / 2 < frac then f + 1
  else if f % 2 = 0 then f else f + 1

/-- Round a positive rational to 53 significant bits (nearest, ties to
even): scale into `[2 ^ 52, 2 ^ 53)`, round to an integer, scale back. -/
def rndPos (q : ℚ) : ℚ :=
  let scale := pow2 ((52 : ℤ) - qexp2 q)
  ((roundHalfEven (q * scale) : ℤ) : ℚ) / scale

/-- Correct rounding of an exact rational to an IEEE binary64 value
(round to nearest, ties to even; unbounded exponent range). -/
def rnd (q : ℚ) : ℚ :=
  if q = 0 then 0 else if q < 0 then -rndPos (-q) else rndPos q

/-- Double-precision addition. -/
def fadd (a b : ℚ) : ℚ := rnd (a + b)

/-- Double-precision subtraction. -/
def fsub (a b : ℚ) : ℚ := rnd (a - b)

/-- Double-precision multiplication. -/
def fmul (a b : ℚ) : ℚ := rnd (a * b)

/-- Double-precision division (only ever used with nonzero divisors in
this development). -/
def fdiv (a b : ℚ) : ℚ := rnd (a / b)

/-! ## Errors

The exceptions the modelled code can actually raise.  (The source defines
no exception classes of its own; in particular nothing called
`InvalidGeometryError` exists anywhere in `subtile.py`.) -/

/-- Python exceptions arising in the modelled fragment of `subtile.py`. -/
inductive PyErr where
  /-- `FileNotFoundError`, e.g. from `Path.mkdir` with a missing parent. -/
  | fileNotFoundError
  /-- `FileExistsError`, from `Path.mkdir` without `exist_ok`. -/
  | fileExistsError
  /-- `ZeroDivisionError`, from `np.arange` with a zero step. -/
  | zeroDivisionError
deriving DecidableEq

/-! ## Geometry Resolver: `Subtile.get_image_properties` -/

/-- The per-run geometry fields set by `get_image_properties`. -/
structure Geometry where
  width : ℚ
  height : ℚ
  x_origin : ℚ
  y_origin : ℚ
  size : ℚ
deriving DecidableEq

/-- Method `Subtile.get_image_properties`, as a function of the source SVG's
intrinsic viewport width and height (both doubles).  Note how the source
reads them crosswise:

    self.width = svg.viewport_height
    self.height = svg.viewport_width

and then

    self.size = max(self.width, self.height)
    if self.width > self.height:
        self.y_origin = (self.height - self.width) / 2
    elif self.height > self.width:
        self.x_origin = (self.width - self.height) / 2
-/
def get_image_properties (viewport_width viewport_height : ℚ) : Geometry :=
  let width := viewport_height
  let height := viewport_width
  let size := max width height
  if width > height then
    { width := width, height := height,
      x_origin := 0, y_origin := fdiv (fsub height width) 2, size := size }
  else if height > width then
    { width := width, height := height,
      x_origin := fdiv (fsub width height) 2, y_origin := 0, size := size }
  else
    { width := width, height := height, x_origin := 0, y_origin := 0, size := size }

/-! ## Tile Plan Generator: `Subtile.generate_tile_specs` -/

/-- The four numbers interpolated into the `export-area` string
`f"{x}:{y}:{x+n}:{y+n}"` handed to the rasterizer. -/
structure Area where
  x0 : ℚ
  y0 : ℚ
  x1 : ℚ
  y1 : ℚ
deriving DecidableEq

/-- The `Tile` value class of `subtile.py`. -/
structure Tile where
  x : ℕ
  y : ℕ
  z : ℕ
  size : ℕ
  inkscape_area : Area
deriving DecidableEq

/-- Numpy's `np.arange(start, stop, step)` over doubles: length
`ceil((stop - start) / step)` (clamped at zero), element `i` equal to
`start + i * step`, `ZeroDivisionError` on a zero step. -/
def arange (start stop step : ℚ) : Except PyErr (List ℚ) :=
  if step = 0 then .error .zeroDivisionError
  else
    let len : ℤ := ⌈fdiv (fsub stop start) step⌉
    .ok ((List.range len.toNat).map fun i => fadd start (fmul (i : ℚ) step))

/-- The body of `generate_tile_specs` for one zoom level `z`:

    n = self.size / 2**z
    x_index = 0
    for x in np.arange(self.x_origin, self.x_origin + self.size, n):
        y_index = 0
        for y in np.arange(self.y_origin, self.y_origin + self.size, n):
            tiles.append(Tile(x=x_index, y=y_index, z=z,
                              size=self.options.tilesize,
                              inkscape_area=f"{x}:{y}:{x+n}:{y+n}"))
            y_index += 1
        x_index += 1
-/
def tilesAtLevel (g : Geometry) (tilesize z : ℕ) : Except PyErr (List Tile) := do
  let n := fdiv g.size ((2 ^ z : ℕ) : ℚ)
  let xs ← arange g.x_origin (fadd g.x_origin g.size) n
  let ys ← arange g.y_origin (fadd g.y_origin g.size) n
  return xs.enum.flatMap fun xe =>
    ys.enum.map fun ye =>
      { x := xe.1, y := ye.1, z := z, size := tilesize,
        inkscape_area := ⟨xe.2, ye.2, fadd xe.2 n, fadd ye.2 n⟩ }

/-- Method `Subtile.generate_tile_specs`: all levels `z ∈ range(0, zoom)` in
order, each level's tiles appended to the accumulated list. -/
def generate_tile_specs (g : Geometry) (zoom tilesize : ℕ) :
    Except PyErr (List Tile) :=
  (List.range zoom).foldlM
    (fun acc z => do
      let t ← tilesAtLevel g tilesize z
      return acc ++ t)
    []

/-! ## Filesystem model and `pathlib.Path.mkdir` -/

/-- A filesystem path, as its list of components. -/
abbrev FsPath := List String

/-- A filesystem: the list of directories that exist. -/
abbrev FS := List FsPath

/-- Python's `pathlib.Path.mkdir(parents=..., exist_ok=...)`: an existing target
errors with `FileExistsError` unless `exist_ok`; with `parents` all
missing ancestors are created; otherwise a missing parent errors with
`FileNotFoundError`. -/
def mkdir (fs : FS) (p : FsPath) (parents exist_ok : Bool) : Except PyErr FS :=
  if p ∈ fs then
    if exist_ok then .ok fs else .error .fileExistsError
  else if parents then .ok (p.inits ++ fs)
  else if p.dropLast ∈ fs then .ok (p :: fs)
  else .error .fileNotFoundError

/-! ## Configuration: `Subtile.add_arguments` -/

/-- The options declared by `add_arguments`.  (`--split_layers` is parsed
here and never read anywhere else in the source.) -/
structure Options where
  directory : FsPath
  split_layers : Bool
  zoom : ℕ
  filetype : String
  tilesize : ℕ
  ignore_transparent : Bool

/-- Method `Subtile.format_filename`:
`self.options.directory.joinpath(f"{z}/{x}/{y}.{filetype}")`, with the
filetype argument defaulting to `self.options.filetype`. -/
def format_filename (opts : Options) (x y z : ℕ) (filetype : Option String) :
    FsPath :=
  opts.directory ++ [Nat.repr z, Nat.repr x, Nat.repr y ++ "." ++ filetype.getD opts.filetype]

/-! ## Decoded rasters and `Image.getextrema()` -/

/-- A decoded raster: its bands (each a list of pixel values) plus the
mode information of whether the image carries an alpha band.  In every
PIL mode that has alpha (RGBA, RGBa, LA, La, PA) the alpha band is the
last band. -/
structure PILImage where
  bands : List (List ℕ)
  hasAlpha : Bool
deriving DecidableEq

/-- The `(min, max)` pair of one band of pixels (PIL images have at least
one pixel; the value at `[]` is junk for an impossible input). -/
def bandExtrema (b : List ℕ) : ℕ × ℕ :=
  match b with
  | [] => (0, 0)
  | v :: t => (t.foldl min v, t.foldl max v)

/-- The test `image.getextrema()[-1] == (0, 0)` of `export_tile`.  For a
multiband image `getextrema()` is the tuple of per-band `(min, max)`
pairs, so `[-1]` is the last band's pair.  For a *single-band* image PIL
returns one flat `(min, max)` pair, so `[-1]` is the maximum — an
integer, whose comparison `== (0, 0)` with a tuple is always `False`. -/
def lastExtremaZero (img : PILImage) : Bool :=
  match img.bands with
  | [_] => false
  | bs => bs.getLast?.map bandExtrema == some (0, 0)

/-! ## Tile Renderer: `Subtile.export_tile` -/

/-- What one `export_tile` call did: which of the two files it touches
(the PNG intermediate and the final output path) exist when it returns,
whether the re-encode step `image.save(filename)` ran, and whether the
intermediate was `os.remove`d. -/
structure ExportTrace where
  files : List FsPath
  reencoded : Bool
  removed_intermediate : Bool
deriving DecidableEq

/-- Method `Subtile.export_tile`, given the decoded raster `img` that the
external rasterizer left at the intermediate PNG path:

    filename = self.format_filename(tile.x, tile.y, tile.z)
    ... inkscape(svg_file, export-filename=format_filename(..., "png"), ...)
    image = Image.open(kwargs["export-filename"])
    if image.getextrema()[-1] == (0,0) and self.options.ignore_transparent:
        os.remove(kwargs["export-filename"])
        return
    elif self.options.filetype != "png":
        image.save(filename.as_posix())
        os.remove(kwargs["export-filename"])
-/
def export_tile (opts : Options) (tile : Tile) (img : PILImage) : ExportTrace :=
  let filename := format_filename opts tile.x tile.y tile.z none
  let pngfile := format_filename opts tile.x tile.y tile.z (some "png")
  if lastExtremaZero img && opts.ignore_transparent then
    { files := [], reencoded := false, removed_intermediate := true }
  else if opts.filetype ≠ "png" then
    { files := [filename], reencoded := true, removed_intermediate := true }
  else
    { files := [pngfile], reencoded := false, removed_intermediate := false }

/-! ## Work Distributor and `Subtile.effect` -/

/-- Constant `thread_count = 4` of `effect`. -/
def thread_count : ℕ := 4

/-- The Python slice `l[start::step]` (for `step > 0`): every `step`-th
element of `l` from index `start` on. -/
def everyNth : List α → ℕ → List α
  | [], _ => []
  | a :: rest, step => a :: everyNth (rest.drop (step - 1)) step
termination_by l => l.length
decreasing_by simp [List.length_drop]; omega

/-- Slice `tile_specs[i::thread_count]`, one worker's round-robin share. -/
def pySlice (l : List α) (start step : ℕ) : List α :=
  everyNth (l.drop start) step

/-- List `batch_tiles = [tile_specs[i::thread_count] for i in range(thread_count)]`. -/
def batch_tiles (plan : List Tile) : List (List Tile) :=
  (List.range thread_count).map fun i => pySlice plan i thread_count

/-- Everything a completed run produced: the filesystem after the root
`mkdir`, the geometry, the tile plan, its partition into the four
workers' batches, and per worker the trace of each of its `export_tile`
calls (in its sequential order). -/
structure RunResult where
  fs : FS
  geom : Geometry
  plan : List Tile
  batches : List (List Tile)
  traces : List (List ExportTrace)

/-- Method `Subtile.effect`, with the source SVG abstracted to its viewport
width/height and the external rasterizer to an oracle `raster` giving
the decoded intermediate raster of each tile:

    self.options.directory.mkdir(exist_ok=True)
    self.get_image_properties()
    thread_count = 4
    tile_specs = self.generate_tile_specs()
    batch_tiles = [tile_specs[i::thread_count] for i in range(thread_count)]
    ... start one thread per batch running export_tiles, join all ...

Each worker renders its batch in order; distinct tiles touch distinct
paths, so the run's effects are exactly the per-tile traces. -/
def effect (opts : Options) (fs0 : FS) (viewport_width viewport_height : ℚ)
    (raster : Tile → PILImage) : Except PyErr RunResult := do
  let fs ← mkdir fs0 opts.directory false true
  let geom := get_image_properties viewport_width viewport_height
  let plan ← generate_tile_specs geom opts.zoom opts.tilesize
  let batches := batch_tiles plan
  let traces := batches.map fun b => b.map fun t => export_tile opts t (raster t)
  return ⟨fs, geom, plan, batches, traces⟩

/-! ## Concrete inputs used by the counterexamples and witnesses -/

/-- The IEEE binary64 double nearest to 0.6 — the value `float("0.6")`,
i.e. a parsed SVG viewport dimension of `0.6` user units. -/
def sixTenths : ℚ := 5404319552844595 / 9007199254740992

/-- A fully transparent one-pixel RGBA raster. -/
def imgRGBAClear : PILImage := ⟨[[0], [0], [0], [0]], true⟩

/-- An opaque one-pixel RGBA raster. -/
def imgRGBAOpaque : PILImage := ⟨[[10], [20], [30], [255]], true⟩

/-- A single-band (PIL mode `L`) raster whose only channel is uniformly
zero: a fully black grayscale tile, with no alpha anywhere. -/
def imgGrayBlack : PILImage := ⟨[[0, 0, 0, 0]], false⟩

/-- A tile descriptor used as concrete input (its fields are irrelevant
to `export_tile` except for the coordinates). -/
def tile0 : Tile := ⟨0, 0, 0, 256, ⟨0, 0, 1, 1⟩⟩

/-- A configuration requesting PNG output with transparent tiles
discarded. -/
def optsPng : Options := ⟨["tiles"], false, 2, "png", 256, true⟩

/-- A configuration requesting WEBP output with transparent tiles
discarded. -/
def optsWebp : Options := ⟨["tiles"], false, 2, "webp", 256, true⟩

set_option maxRecDepth 400000

/-! ## The claims -/

/-- C1.  The claim reads the Geometry Resolver's contract with `width`
and `height` denoting the source image's width and height: for a source
of width 100 and height 50 it asks for `extent = 100`, `yOrigin = -25`,
`xOrigin = 0`.  The code, however, loads the viewport dimensions
crosswise (`self.width = svg.viewport_height`, `self.height =
svg.viewport_width`), so on that very source it centers the *x* axis:
`x_origin = -25`, `y_origin = 0` — the claimed contract with the axes
exchanged, against the code's own stated intent of centering the image
bounds. -/
theorem c1_geometry_axes_swapped :
    get_image_properties 100 50 =
      { width := 50, height := 100, x_origin := -25, y_origin := 0, size := 100 } := by
  with_unfolding_all rfl

/-- C2.  The Tile Plan Generator does *not* always emit `2 ^ z` grid
steps per axis: its step count is `np.arange`'s floating-point length.
For a source of viewport width 0.5 and height 0.6 (both exact doubles)
and `maxZoom = 2`, the computed double `y_origin + size` exceeds
`y_origin` by slightly *more* than `size`, `ceil` rounds up, and the y
axis gets `2 ^ z + 1` steps at every level: 2 tiles at `z = 0` and 6 at
`z = 1`, 8 in total, where the claim requires 1 and 4, 5 in total. -/
theorem c2_arange_step_overcount :
    (generate_tile_specs (get_image_properties (1 / 2) sixTenths) 2 256).map
        (fun l => (l.length, (l.filter fun t => t.z == 0).length)) =
      .ok (8, 2) := by
  with_unfolding_all rfl

/-- C3.  On the same source (viewport 0.5 × 0.6, exact doubles), the
regions emitted at zoom level 1 are not the `2 × 2` partition of the
square: six regions are emitted, two of them carrying the out-of-grid
row index `y = 2`. -/
theorem c3_level_one_not_a_partition :
    (generate_tile_specs (get_image_properties (1 / 2) sixTenths) 2 256).map
        (fun l => ((l.filter fun t => t.z == 1).length,
          (l.filter fun t => t.z == 1 && t.y == 2).length)) =
      .ok (6, 2) := by
  with_unfolding_all rfl

/-- C7 counterexample.  A degenerate source (viewport 0 × 0, extent 0)
does not fail with any `InvalidGeometryError` — no such exception class
exists anywhere in `subtile.py`.  The run aborts with the
`ZeroDivisionError` that `np.arange` raises for the zero step
`n = size / 2**z = 0`. -/
theorem c7_zero_extent_raises_zero_division :
    effect ⟨["out"], false, 5, "webp", 256, true⟩ [["out"], []] 0 0
        (fun _ => imgRGBAOpaque) =
      .error .zeroDivisionError := by
  with_unfolding_all rfl

/-- C8.  The `--split_layers` option is parsed by `add_arguments` and
read nowhere else: two runs whose configurations differ only in
`split_layers` are indistinguishable — same filesystem effect, same
geometry, same plan, same batches, same per-tile traces, same errors. -/
theorem c8_split_layers_has_no_effect (d : FsPath) (b₁ b₂ : Bool) (z : ℕ)
    (ft : String) (ts : ℕ) (ig : Bool) (fs0 : FS) (vw vh : ℚ)
    (raster : Tile → PILImage) :
    effect ⟨d, b₁, z, ft, ts, ig⟩ fs0 vw vh raster =
      effect ⟨d, b₂, z, ft, ts, ig⟩ fs0 vw vh raster := rfl

/-- C6 counterexample.  With `filetype = "png"` and a fully transparent
tile under `ignore_transparent`, the code *does* delete the intermediate
— which is the only copy, since intermediate and final path coincide for
PNG — refuting "never deletes the intermediate". -/
theorem c6_png_discard_deletes_intermediate :
    (export_tile optsPng tile0 imgRGBAClear).removed_intermediate = true ∧
      (export_tile optsPng tile0 imgRGBAClear).files = [] :=
  ⟨by with_unfolding_all rfl, by with_unfolding_all rfl⟩

/-- C9 counterexample.  The discard test is not "last channel uniformly
zero" either: for a *single-band* raster (PIL mode `L`) `getextrema()`
returns one flat `(min, max)` pair, `[-1]` picks the integer maximum,
and the comparison `== (0, 0)` is always false.  A uniformly-zero
single-band tile with no alpha is therefore *kept* — re-encoded to the
output path — although its last (only) channel is uniformly 0 and
`ignore_transparent` is set. -/
theorem c9_single_band_zero_not_discarded :
    (export_tile optsWebp tile0 imgGrayBlack).files =
        [format_filename optsWebp 0 0 0 none] ∧
      (export_tile optsWebp tile0 imgGrayBlack).reencoded = true :=
  ⟨by with_unfolding_all rfl, by with_unfolding_all rfl⟩

/-! ## Round-robin distribution lemmas -/

/-- Indexing an `everyNth` slice: its `k`-th element is the underlying
list's `s * k`-th element. -/
theorem everyNth_getElem? {α : Type _} (s : ℕ) (hs : 1 ≤ s) :
    ∀ (k : ℕ) (l : List α), (everyNth l s)[k]? = l[s * k]? := by
  intro k
  induction k with
  | zero =>
    intro l
    cases l with
    | nil => simp [everyNth]
    | cons a t => simp [everyNth]
  | succ k ih =>
    intro l
    cases l with
    | nil => simp [everyNth]
    | cons a t =>
      rw [everyNth, List.getElem?_cons_succ, ih, List.getElem?_drop,
        Nat.mul_succ]
      have h : s * k + s = (s - 1 + s * k) + 1 := by omega
      rw [h, List.getElem?_cons_succ]

/-- Indexing one worker's slice: worker `start`'s `k`-th tile is the
plan's element at index `start + step * k`. -/
theorem pySlice_getElem? {α : Type _} (l : List α) (start step k : ℕ)
    (hs : 1 ≤ step) :
    (pySlice l start step)[k]? = l[start + step * k]? := by
  rw [pySlice, everyNth_getElem? step hs, List.getElem?_drop]

/-- Computation rule: slicing a cons from offset 0. -/
theorem pySlice_cons_zero {α : Type _} (a : α) (t : List α) (s : ℕ) :
    pySlice (a :: t) 0 s = a :: pySlice t (s - 1) s := by
  rw [pySlice, List.drop_zero, everyNth, pySlice]

/-- Computation rule: slicing a cons from a positive offset. -/
theorem pySlice_cons_succ {α : Type _} (a : α) (t : List α) (i s : ℕ) :
    pySlice (a :: t) (i + 1) s = pySlice t i s := by
  rw [pySlice, List.drop_succ_cons, pySlice]

/-- The four round-robin slices of step 4 together form a permutation of
the underlying list. -/
theorem pySlice_four_perm {α : Type _} (l : List α) :
    (pySlice l 0 4 ++ (pySlice l 1 4 ++ (pySlice l 2 4 ++ pySlice l 3 4))).Perm
      l := by
  induction l with
  | nil => simp [pySlice, everyNth]
  | cons a t ih =>
    rw [pySlice_cons_zero, pySlice_cons_succ, pySlice_cons_succ,
      pySlice_cons_succ, List.cons_append]
    refine List.Perm.cons a ?_
    refine List.perm_append_comm.trans ?_
    have h4 : (pySlice t 0 4 ++ (pySlice t 1 4 ++ pySlice t 2 4)) ++ pySlice t 3 4
        = pySlice t 0 4 ++ (pySlice t 1 4 ++ (pySlice t 2 4 ++ pySlice t 3 4)) := by
      simp [List.append_assoc]
    rw [h4]
    exact ih

/-- C5.  `effect` distributes the plan over `thread_count = 4` workers by
the slices `tile_specs[i::4]`: worker `i`'s `k`-th tile is the plan
element of index `i + 4k` (so worker `i` receives exactly the tiles whose
plan index is congruent to `i` mod 4, in plan order), and the four
batches joined together are a permutation of the plan — every tile is
handed to the Tile Renderer exactly once, no duplication, no omission. -/
theorem c5_round_robin_exact_partition (plan : List Tile) :
    batch_tiles plan =
        [pySlice plan 0 thread_count, pySlice plan 1 thread_count,
          pySlice plan 2 thread_count, pySlice plan 3 thread_count] ∧
      (∀ i k, (pySlice plan i thread_count)[k]? = plan[i + thread_count * k]?) ∧
      ((batch_tiles plan).flatten).Perm plan := by
  refine ⟨rfl, fun i k => pySlice_getElem? plan i thread_count k (by decide), ?_⟩
  have h : (batch_tiles plan).flatten =
      pySlice plan 0 4 ++ (pySlice plan 1 4 ++ (pySlice plan 2 4 ++ pySlice plan 3 4)) := by
    simp [batch_tiles, thread_count, List.flatten]
  rw [h]
  exact pySlice_four_perm plan

/-! ## Tile Renderer lemmas -/

/-- When the configured filetype is `png`, the final output path and the
intermediate PNG path are the same file. -/
theorem format_filename_png (opts : Options) (x y z : ℕ)
    (h : opts.filetype = "png") :
    format_filename opts x y z (some "png") = format_filename opts x y z none := by
  simp [format_filename, h]

/-- For a raster with at least two bands, the source's test
`getextrema()[-1] == (0, 0)` compares the last band's extrema pair. -/
theorem lastExtremaZero_multiband (img : PILImage)
    (h2 : 2 ≤ img.bands.length) :
    lastExtremaZero img = (img.bands.getLast?.map bandExtrema == some (0, 0)) := by
  obtain ⟨bs, al⟩ := img
  cases bs with
  | nil => simp at h2
  | cons a t =>
    cases t with
    | nil => simp at h2
    | cons b t => rfl

/-- The discard branch of `export_tile`: remove the intermediate, leave
nothing, skip re-encoding. -/
theorem export_tile_discard (opts : Options) (tile : Tile) (img : PILImage)
    (h : (lastExtremaZero img && opts.ignore_transparent) = true) :
    export_tile opts tile img =
      { files := [], reencoded := false, removed_intermediate := true } := by
  simp [export_tile, h]

/-- The convert branch of `export_tile`: re-encode to the final path and
remove the intermediate. -/
theorem export_tile_convert (opts : Options) (tile : Tile) (img : PILImage)
    (h : (lastExtremaZero img && opts.ignore_transparent) = false)
    (hft : opts.filetype ≠ "png") :
    export_tile opts tile img =
      { files := [format_filename opts tile.x tile.y tile.z none],
        reencoded := true, removed_intermediate := true } := by
  simp [export_tile, h, hft]

/-- The keep branch of `export_tile` for PNG output: the intermediate
stays and already is the final file. -/
theorem export_tile_keep_png (opts : Options) (tile : Tile) (img : PILImage)
    (h : (lastExtremaZero img && opts.ignore_transparent) = false)
    (hft : opts.filetype = "png") :
    export_tile opts tile img =
      { files := [format_filename opts tile.x tile.y tile.z (some "png")],
        reencoded := false, removed_intermediate := false } := by
  simp [export_tile, h, hft]

/-- The extrema of the image's alpha channel, when it has one (in every
PIL mode with alpha the alpha band is the last band). -/
def alphaExtrema (img : PILImage) : Option (ℕ × ℕ) :=
  if img.hasAlpha then img.bands.getLast?.map bandExtrema else none

/-- C4.  For every tile whose decoded intermediate raster carries an
alpha channel (hence is multiband), `export_tile` leaves no file at the
tile's output path exactly when the alpha channel's extrema are `(0, 0)`
and `ignore_transparent` is set; in that case it deletes the
intermediate PNG and returns leaving no file at all (the model is a
total function — the branch raises nothing). -/
theorem c4_discard_iff_alpha_extrema_zero (opts : Options) (tile : Tile)
    (img : PILImage) (hA : img.hasAlpha = true) (h2 : 2 ≤ img.bands.length) :
    (format_filename opts tile.x tile.y tile.z none ∉
        (export_tile opts tile img).files ↔
      alphaExtrema img = some (0, 0) ∧ opts.ignore_transparent = true) ∧
    (alphaExtrema img = some (0, 0) → opts.ignore_transparent = true →
      (export_tile opts tile img).files = [] ∧
        (export_tile opts tile img).removed_intermediate = true) := by
  have hae : alphaExtrema img = img.bands.getLast?.map bandExtrema := by
    simp [alphaExtrema, hA]
  have hlz := lastExtremaZero_multiband img h2
  by_cases hd : (lastExtremaZero img && opts.ignore_transparent) = true
  · have hdc : alphaExtrema img = some (0, 0) ∧ opts.ignore_transparent = true := by
      rw [Bool.and_eq_true, hlz] at hd
      exact ⟨by rw [hae]; simpa using hd.1, hd.2⟩
    rw [export_tile_discard opts tile img hd]
    exact ⟨by simpa using hdc, fun _ _ => ⟨rfl, rfl⟩⟩
  · have hd' : (lastExtremaZero img && opts.ignore_transparent) = false := by
      rwa [Bool.not_eq_true] at hd
    have hrhs : ¬(alphaExtrema img = some (0, 0) ∧ opts.ignore_transparent = true) := by
      rintro ⟨h1, hig⟩
      apply hd
      rw [Bool.and_eq_true, hlz, hig]
      rw [hae] at h1
      exact ⟨by simpa using h1, rfl⟩
    constructor
    · by_cases hft : opts.filetype = "png"
      · rw [export_tile_keep_png opts tile img hd' hft,
          format_filename_png opts tile.x tile.y tile.z hft]
        simpa using hrhs
      · rw [export_tile_convert opts tile img hd' hft]
        simpa using hrhs
    · intro h1 hig
      exact absurd ⟨h1, hig⟩ hrhs

/-- C4 witness: at a webp configuration with `ignore_transparent` and a
fully transparent RGBA raster, the output path indeed carries no file. -/
theorem c4_discard_iff_alpha_extrema_zero_witness :
    (format_filename optsWebp tile0.x tile0.y tile0.z none ∉
        (export_tile optsWebp tile0 imgRGBAClear).files) ∧
      (export_tile optsWebp tile0 imgRGBAClear).files = [] := by
  have h := c4_discard_iff_alpha_extrema_zero optsWebp tile0 imgRGBAClear rfl
    (by decide)
  have hz : alphaExtrema imgRGBAClear = some (0, 0) := by with_unfolding_all rfl
  exact ⟨h.1.mpr ⟨hz, rfl⟩, (h.2 hz rfl).1⟩

/-- C6 amended.  With `filetype = "png"` the re-encode step never runs
and intermediate and final path coincide, but the intermediate (= the
only copy) *is* deleted when the transparent-discard branch fires;
re-encoding to the final path followed by deletion of the intermediate
happens exactly when the configured filetype differs from `"png"` and
the tile is not discarded as transparent. -/
theorem c6_reencode_iff_nonpng_not_discarded (opts : Options) (tile : Tile)
    (img : PILImage) :
    (opts.filetype = "png" →
      (export_tile opts tile img).reencoded = false ∧
      format_filename opts tile.x tile.y tile.z (some "png") =
        format_filename opts tile.x tile.y tile.z none ∧
      ((export_tile opts tile img).removed_intermediate = true ↔
        (lastExtremaZero img && opts.ignore_transparent) = true)) ∧
    ((export_tile opts tile img).reencoded = true ↔
      opts.filetype ≠ "png" ∧
        (lastExtremaZero img && opts.ignore_transparent) = false) ∧
    ((export_tile opts tile img).reencoded = true →
      (export_tile opts tile img).removed_intermediate = true) := by
  by_cases hd : (lastExtremaZero img && opts.ignore_transparent) = true
  · rw [export_tile_discard opts tile img hd]
    refine ⟨fun hft => ⟨rfl, format_filename_png opts tile.x tile.y tile.z hft,
      by simpa using hd⟩, ?_, by simp⟩
    simp [hd]
  · have hd' : (lastExtremaZero img && opts.ignore_transparent) = false := by
      rwa [Bool.not_eq_true] at hd
    by_cases hft : opts.filetype = "png"
    · rw [export_tile_keep_png opts tile img hd' hft]
      refine ⟨fun _ => ⟨rfl, format_filename_png opts tile.x tile.y tile.z hft,
        by simp [hd']⟩, ?_, by simp⟩
      simp [hft]
    · rw [export_tile_convert opts tile img hd' hft]
      exact ⟨fun h => absurd h hft, by simp [hft, hd'], fun _ => rfl⟩

/-- C6 witness: a png configuration on an opaque tile re-encodes nothing
and keeps the (only) file in place. -/
theorem c6_reencode_iff_nonpng_not_discarded_witness :
    (export_tile optsPng tile0 imgRGBAOpaque).reencoded = false :=
  ((c6_reencode_iff_nonpng_not_discarded optsPng tile0 imgRGBAOpaque).1 rfl).1

/-! ## All-zero band lemmas (for C9) -/

/-- Folding `min` over an all-zero list of naturals gives zero. -/
theorem foldl_min_all_zero :
    ∀ (t : List ℕ) (v : ℕ), v = 0 → (∀ x ∈ t, x = 0) → t.foldl min v = 0 := by
  intro t
  induction t with
  | nil => intro v hv _; simpa using hv
  | cons x t ih =>
    intro v hv hx
    rw [List.foldl_cons]
    exact ih (min v x) (by rw [hv, hx x (by simp)]; simp) fun y hy => hx y (by simp [hy])

/-- Folding `max` over an all-zero list of naturals gives zero. -/
theorem foldl_max_all_zero :
    ∀ (t : List ℕ) (v : ℕ), v = 0 → (∀ x ∈ t, x = 0) → t.foldl max v = 0 := by
  intro t
  induction t with
  | nil => intro v hv _; simpa using hv
  | cons x t ih =>
    intro v hv hx
    rw [List.foldl_cons]
    exact ih (max v x) (by rw [hv, hx x (by simp)]; simp) fun y hy => hx y (by simp [hy])

/-- A nonempty uniformly-zero band has extrema `(0, 0)`. -/
theorem bandExtrema_all_zero (b : List ℕ) (hne : b ≠ [])
    (hz : ∀ v ∈ b, v = 0) : bandExtrema b = (0, 0) := by
  cases b with
  | nil => exact absurd rfl hne
  | cons v t =>
    have hv : v = 0 := hz v (by simp)
    show (t.foldl min v, t.foldl max v) = (0, 0)
    rw [foldl_min_all_zero t v hv fun y hy => hz y (by simp [hy]),
      foldl_max_all_zero t v hv fun y hy => hz y (by simp [hy])]

/-- C9 amended.  The discard test looks only at the *last* band of a
multiband raster, alpha or not: a raster with at least two bands and no
alpha channel whose last (color) band is uniformly zero is discarded
under `ignore_transparent` — no file appears at the output path although
the tile is not transparent.  (For a *single*-band raster the test is
instead always false; see the counterexample.) -/
theorem c9_multiband_last_channel_discarded (opts : Options) (tile : Tile)
    (img : PILImage) (_hA : img.hasAlpha = false) (h2 : 2 ≤ img.bands.length)
    (lb : List ℕ) (hlb : img.bands.getLast? = some lb) (hne : lb ≠ [])
    (hz : ∀ v ∈ lb, v = 0) (hig : opts.ignore_transparent = true) :
    (export_tile opts tile img).files = [] ∧
      (export_tile opts tile img).removed_intermediate = true := by
  have hcond : (lastExtremaZero img && opts.ignore_transparent) = true := by
    rw [Bool.and_eq_true, lastExtremaZero_multiband img h2, hig, hlb]
    exact ⟨by simp [bandExtrema_all_zero lb hne hz], rfl⟩
  rw [export_tile_discard opts tile img hcond]
  exact ⟨rfl, rfl⟩

/-- C9 witness: an RGB raster (three bands, no alpha) with blue channel
uniformly zero is discarded under `ignore_transparent`. -/
theorem c9_multiband_last_channel_discarded_witness :
    (export_tile optsWebp tile0 ⟨[[5], [7], [0]], false⟩).files = [] ∧
      (export_tile optsWebp tile0 ⟨[[5], [7], [0]], false⟩).removed_intermediate =
        true :=
  c9_multiband_last_channel_discarded optsWebp tile0 ⟨[[5], [7], [0]], false⟩
    rfl (by decide) [0] rfl (by decide) (by decide) rfl

/-! ## Fail-fast lemmas (for C7 and C10) -/

/-- An `np.arange` with zero step raises `ZeroDivisionError`. -/
theorem arange_zero_step (a b : ℚ) :
    arange a b 0 = .error .zeroDivisionError := by
  simp [arange]

/-- With extent 0, level 0 already dies: `n = size / 2**0 = 0.0` and the
x-axis `np.arange` raises `ZeroDivisionError`. -/
theorem tilesAtLevel_zero_size (g : Geometry) (ts : ℕ) (hg : g.size = 0) :
    tilesAtLevel g ts 0 = .error .zeroDivisionError := by
  have hn : fdiv g.size (((2 : ℕ) ^ (0 : ℕ) : ℕ) : ℚ) = 0 := by
    rw [hg]
    norm_num [fdiv, rnd]
  rw [tilesAtLevel, hn, arange_zero_step]
  rfl

/-- With extent 0 and a positive zoom, plan generation aborts with
`ZeroDivisionError`. -/
theorem generate_tile_specs_zero_size (g : Geometry) (zoom ts : ℕ)
    (hg : g.size = 0) (hz : 0 < zoom) :
    generate_tile_specs g zoom ts = .error .zeroDivisionError := by
  obtain ⟨m, rfl⟩ : ∃ m, zoom = m + 1 := ⟨zoom - 1, by omega⟩
  rw [generate_tile_specs, List.range_succ_eq_map, List.foldlM_cons]
  have h0 : tilesAtLevel g ts 0 = .error .zeroDivisionError :=
    tilesAtLevel_zero_size g ts hg
  simp only [h0]
  rfl

/-- C7 amended.  The code defines no `InvalidGeometryError`; what a
degenerate source with extent 0 actually gets, for any positive
configured zoom, is a fail-fast `ZeroDivisionError` raised by
`np.arange`'s zero step during plan generation — the run aborts before
any tile is rendered (the result carries no render traces, whatever the
rasterizer oracle would have answered). -/
theorem c7_zero_extent_fails_before_rendering (opts : Options) (fs0 : FS)
    (vw vh : ℚ) (raster : Tile → PILImage)
    (hdir : opts.directory ∈ fs0) (hzoom : 0 < opts.zoom)
    (hsize : (get_image_properties vw vh).size = 0) :
    effect opts fs0 vw vh raster = .error .zeroDivisionError := by
  have hmk : mkdir fs0 opts.directory false true = .ok fs0 := by
    simp [mkdir, hdir]
  have hgen := generate_tile_specs_zero_size (get_image_properties vw vh)
    opts.zoom opts.tilesize hsize hzoom
  rw [effect]
  rw [hmk]
  show (generate_tile_specs (get_image_properties vw vh) opts.zoom
      opts.tilesize).bind _ = _
  rw [hgen]
  rfl

/-- C7 witness: a 0 × 0 viewport under an existing output root and
zoom 2 aborts with `ZeroDivisionError`. -/
theorem c7_zero_extent_fails_before_rendering_witness :
    effect ⟨["t"], true, 2, "png", 128, false⟩ [["t"]] 0 0
        (fun _ => imgRGBAOpaque) =
      .error .zeroDivisionError :=
  c7_zero_extent_fails_before_rendering ⟨["t"], true, 2, "png", 128, false⟩
    [["t"]] 0 0 (fun _ => imgRGBAOpaque) (by simp) (by norm_num)
    (by with_unfolding_all rfl)

/-! ## Output-directory creation (C10) -/

/-- C10.  The run's very first act is
`self.options.directory.mkdir(exist_ok=True)` — *without* `parents` — so
when the configured output root and its parent are both absent the run
raises `FileNotFoundError` before geometry is read or anything is
rendered (the outcome does not depend on the source image or the
rasterizer at all); per-tile directory creation, by contrast, passes
`parents=True, exist_ok=True` and always succeeds. -/
theorem c10_root_mkdir_without_parents :
    (∀ (opts : Options) (fs0 : FS) (vw vh : ℚ) (raster : Tile → PILImage),
        opts.directory ∉ fs0 → opts.directory.dropLast ∉ fs0 →
        effect opts fs0 vw vh raster = .error .fileNotFoundError) ∧
      ∀ (fs : FS) (p : FsPath), (mkdir fs p true true).isOk = true := by
  constructor
  · intro opts fs0 vw vh raster h1 h2
    have hmk : mkdir fs0 opts.directory false true =
        .error .fileNotFoundError := by
      simp [mkdir, h1, h2]
    rw [effect]
    rw [hmk]
    rfl
  · intro fs p
    by_cases h : p ∈ fs
    · simp [mkdir, h, Except.isOk, Except.toBool]
    · simp [mkdir, h, Except.isOk, Except.toBool]

/-- C10 witness: with only the filesystem root present, a run configured
for `srv/tiles` dies with `FileNotFoundError` whatever the source is,
while a `parents=True` mkdir of the same path succeeds. -/
theorem c10_root_mkdir_without_parents_witness :
    effect ⟨["srv", "tiles"], false, 3, "png", 256, false⟩ [[]] 100 50
        (fun _ => imgRGBAOpaque) =
      .error .fileNotFoundError ∧
    (mkdir [[]] ["srv", "tiles"] true true).isOk = true :=
  ⟨c10_root_mkdir_without_parents.1 ⟨["srv", "tiles"], false, 3, "png", 256, false⟩
      [[]] 100 50 (fun _ => imgRGBAOpaque) (by simp) (by simp),
    c10_root_mkdir_without_parents.2 [[]] ["srv", "tiles"]⟩

end Subtile
